import Mathlib

/-!
Formal model of the realtime voice session core of the voice_chatbot
repository: the audio chunk codec (base64 over 16-bit little-endian PCM),
the gapless playback scheduler, the turn state machine, the transcript
accumulator and the relay server's message handling.  The definitions are
translated from `src/frontend/src/App.tsx`, `src/unnamed/part_000` (the
direct-SDK variant of the same component) and `src/backend/src/server.ts`.

Numeric audio samples are modelled as rationals.  All the floating point
operations the code performs on the modelled path (multiplying a sample by
32768, which is a power of two, dividing a 16-bit integer by 32768.0, and
integer truncation) are exact in IEEE doubles, so the rational model agrees
with the JavaScript semantics on these operations.
-/

namespace VoiceChatbot

/-- Turn states, from
`type Status = 'IDLE' | 'LISTENING' | 'THINKING' | 'SPEAKING' | 'ERROR'`. -/
inductive Status where
  | IDLE
  | LISTENING
  | THINKING
  | SPEAKING
  | ERROR
deriving DecidableEq

/-- Message sender, from `sender: 'user' | 'bot'`. -/
inductive Sender where
  | user
  | bot
deriving DecidableEq

/-- A finalized chat message `{id, text, sender}`; `id` is produced by
`Date.now()` at flush time and is supplied to the model as an argument. -/
structure Message where
  id : Nat
  text : String
  sender : Sender
deriving DecidableEq

/-! ## AudioChunkCodec -/

/-- The base64 alphabet used by the browser's `btoa` / `atob`. -/
def b64Alphabet : List Char :=
  ['A','B','C','D','E','F','G','H','I','J','K','L','M',
   'N','O','P','Q','R','S','T','U','V','W','X','Y','Z',
   'a','b','c','d','e','f','g','h','i','j','k','l','m',
   'n','o','p','q','r','s','t','u','v','w','x','y','z',
   '0','1','2','3','4','5','6','7','8','9','+','/']

/-- Character for a 6-bit value. -/
def b64Char (s : Nat) : Char := b64Alphabet.getD s 'A'

/-- 6-bit value of a base64 character (inverse of `b64Char`). -/
def b64Index (c : Char) : Nat := b64Alphabet.indexOf c

/-- The browser's `btoa` on a byte list (the `encode` helper feeds `btoa` one
char per byte): every 3 bytes become 4 base64 characters, a trailing group of
1 or 2 bytes is padded with `=`. -/
def btoaL : List Nat → List Char
  | [] => []
  | [b0] =>
      [b64Char (b0 / 4), b64Char (b0 % 4 * 16), '=', '=']
  | [b0, b1] =>
      [b64Char (b0 / 4), b64Char (b0 % 4 * 16 + b1 / 16), b64Char (b1 % 16 * 4), '=']
  | b0 :: b1 :: b2 :: rest =>
      b64Char (b0 / 4) :: b64Char (b0 % 4 * 16 + b1 / 16) ::
      b64Char (b1 % 16 * 4 + b2 / 64) :: b64Char (b2 % 64) :: btoaL rest

/-- Regroup base64 sextets (6-bit values) into bytes, as `atob` does; a
trailing group of 2 or 3 sextets contributes 1 or 2 bytes. -/
def sextetsToBytes : List Nat → List Nat
  | s0 :: s1 :: s2 :: s3 :: rest =>
      (s0 * 4 + s1 / 16) :: (s1 % 16 * 16 + s2 / 4) :: (s2 % 4 * 64 + s3) ::
      sextetsToBytes rest
  | [s0, s1, s2] => [s0 * 4 + s1 / 16, s1 % 16 * 16 + s2 / 4]
  | [s0, s1] => [s0 * 4 + s1 / 16]
  | _ => []

/-- The browser's `atob` on a character list (the `decode` helper turns the
result back into bytes one char at a time): drop the `=` padding, map the
characters to sextets, regroup into bytes. -/
def atobL (cs : List Char) : List Nat :=
  sextetsToBytes ((cs.filter (fun c => c ≠ '=')).map b64Index)

/-- Truncation of a rational toward zero: the rounding JavaScript's ToInt16
abstract operation applies before wrapping. -/
def ratTruncZ (x : ℚ) : ℤ := if 0 ≤ x then ⌊x⌋ else ⌈x⌉

/-- JavaScript ToInt16 on an already-truncated integer: wrap modulo 2^16 into
the interval [-32768, 32767]. -/
def toInt16 (t : ℤ) : ℤ :=
  let m := t % 65536
  if m < 32768 then m else m - 65536

/-- The conversion applied to each captured sample by
`new Int16Array(inputData.map(f => f * 32768))`: multiply by 32768, truncate
toward zero, wrap modulo 2^16. -/
def jsToInt16 (f : ℚ) : ℤ := toInt16 (ratTruncZ (f * 32768))

/-- The little-endian byte layout of one 16-bit sample in the `Int16Array`
backing buffer, as seen through the `Uint8Array` view that `encode` receives. -/
def int16ToBytesLE (i : ℤ) : List Nat :=
  let u := (i % 65536).toNat
  [u % 256, u / 256]

/-- Serialize a 16-bit sample list to its little-endian byte buffer. -/
def int16sToBytes (l : List ℤ) : List Nat := (l.map int16ToBytesLE).flatten

/-- Reinterpret a byte value pair read little-endian as a signed 16-bit
integer (the `Int16Array` view used by `decodeAudioData`). -/
def toSigned16 (n : Nat) : ℤ := if n < 32768 then (n : ℤ) else (n : ℤ) - 65536

/-- Read a byte buffer back as 16-bit little-endian signed samples
(`new Int16Array(data.buffer)`).  JavaScript throws a `RangeError` when the
buffer's byte length is not a multiple of 2, so odd-length buffers are
outside the codec contract; the model is meaningful (and is only ever
instantiated) on even-length buffers. -/
def bytesToInt16s : List Nat → List ℤ
  | b0 :: b1 :: rest => toSigned16 (b0 + 256 * b1) :: bytesToInt16s rest
  | _ => []

/-- The outbound capture encoding from `scriptProcessor.onaudioprocess`:
`encode(new Uint8Array(new Int16Array(inputData.map(f => f * 32768)).buffer))`,
producing the base64 text payload as a character list. -/
def encodeOutbound (samples : List ℚ) : List Char :=
  btoaL (int16sToBytes (samples.map jsToInt16))

/-- `decodeAudioData` (the `src/unnamed/part_000` variant with an explicit
channel count): view the byte buffer as 16-bit samples, then de-interleave:
channel `ch` gets sample `i` from `dataInt16[i * numChannels + ch] / 32768.0`. -/
def decodeAudioDataQ (data : List Nat) (numChannels : Nat) : List (List ℚ) :=
  let dataInt16 := bytesToInt16s data
  let frameCount := dataInt16.length / numChannels
  (List.range numChannels).map (fun ch =>
    (List.range frameCount).map (fun i =>
      ((dataInt16.getD (i * numChannels + ch) 0 : ℤ) : ℚ) / 32768))

/-- The mono decode used by `src/frontend/src/App.tsx` (`numChannels = 1`):
`channelData[i] = dataInt16[i] / 32768.0` for every frame index. -/
def decodeMonoQ (data : List Nat) : List ℚ :=
  (bytesToInt16s data).map (fun v => ((v : ℤ) : ℚ) / 32768)

/-! ## PlaybackScheduler -/

/-- A scheduled playback source: the `AudioBufferSourceNode` started at
`startTime` whose buffer lasts `duration` seconds. -/
structure Source where
  startTime : ℚ
  duration : ℚ
deriving DecidableEq

/-- One scheduling step, from the audio branch of `onmessage`:
`startTime = Math.max(nextStartTimeRef.current, audioContext.currentTime)`,
`source.start(startTime)`, `nextStartTimeRef.current = startTime + duration`. -/
def scheduleStep (next clock dur : ℚ) : Source × ℚ :=
  let startTime := max next clock
  (⟨startTime, dur⟩, startTime + dur)

/-- Iterate the scheduling step over a sequence of inbound frames given as
`(duration, clockTimeAtArrival)` pairs in arrival order, returning the
scheduled sources and the final value of the `nextStartTime` cursor. -/
def scheduleAll (next : ℚ) : List (ℚ × ℚ) → List Source × ℚ
  | [] => ([], next)
  | (dur, clock) :: rest =>
      let sn := scheduleStep next clock dur
      let srcs := scheduleAll sn.2 rest
      (sn.1 :: srcs.1, srcs.2)

/-- Duration of the decoded inbound audio buffer: `frameCount / sampleRate`
with mono 24 kHz frames (`ctx.createBuffer(1, frameCount, 24000)`). -/
def frameDuration (payload : List Char) : ℚ :=
  ((bytesToInt16s (atobL payload)).length : ℚ) / 24000

/-! ## Session state of the frontend component -/

/-- The mutable per-session state of the component: the `status` and
`messages` React state plus the `useRef` cells (`nextStartTimeRef`,
`playingSourcesRef`, `currentInputTranscriptionRef`,
`currentOutputTranscriptionRef`) and the `isVoiceMode` flag. -/
structure ClientState where
  status : Status
  messages : List Message
  nextStartTime : ℚ
  playingSources : List Source
  currentInputTranscription : String
  currentOutputTranscription : String
  isVoiceMode : Bool
deriving DecidableEq

/-- Whitespace test for the characters `String.prototype.trim` strips (the
ASCII subset; the exotic Unicode space code points never occur in the
transcripts considered here). -/
def isJsSpace (c : Char) : Bool :=
  c == ' ' || c == '\t' || c == '\n' || c == '\r'

/-- Model of JavaScript `text.trim()`: strip leading and trailing whitespace. -/
def jsTrim (s : String) : String :=
  String.mk (((s.data.dropWhile isJsSpace).reverse.dropWhile isJsSpace).reverse)

/-- `addMessage(text, sender)`: `if (!text.trim()) return;` then append
`{id: Date.now(), text: text.trim(), sender}`.  `now` stands for `Date.now()`. -/
def addMessage (now : Nat) (text : String) (sender : Sender)
    (messages : List Message) : List Message :=
  if jsTrim text = "" then messages
  else messages ++ [⟨now, jsTrim text, sender⟩]

/-- `stopAllPlayback`: call `stop()` on every active source, clear the set,
reset the cursor to 0.  The second component records the sources that
received a `stop()` call during this invocation. -/
def stopAllPlayback (s : ClientState) : ClientState × List Source :=
  ({ s with playingSources := [], nextStartTime := 0 }, s.playingSources)

/-- The `serverContent` fields read by `onmessage`; `modelTurn` carries the
base64 payload `modelTurn.parts[0].inlineData.data` when present. -/
structure ServerContent where
  inputTranscription : Option String
  outputTranscription : Option String
  modelTurn : Option (List Char)
  interrupted : Bool
  turnComplete : Bool
deriving DecidableEq

/-- The externally observable actions of one `onmessage` invocation: the
source scheduled for this event's audio frame (if any) and the sources that
were force-stopped. -/
structure EventTrace where
  scheduled : Option Source
  stopped : List Source
deriving DecidableEq

/-- The `serverContent` branch of `onmessage` (identical in
`src/frontend/src/App.tsx` lines 202-242 and `src/unnamed/part_000` lines
226-278), translated statement by statement.

`closureStatus` is the value the `status` identifier has inside the handler's
closure.  In React this is the render-time value captured when `startSession`
created the callbacks; it is a constant for the whole session and does not
track the live `status` state (the `useCallback` dependency lists do not
include `status`).  `clock` is `audioContext.currentTime` and `now` is
`Date.now()`.  The `if (audioContext)` null-check is elided: the output
context is live for the whole session. -/
def processServerContent (closureStatus : Status) (clock : ℚ) (now : Nat)
    (ev : ServerContent) (s : ClientState) : ClientState × EventTrace :=
  -- if (status !== 'SPEAKING') setStatus('THINKING');
  let s1 := if closureStatus ≠ Status.SPEAKING
            then { s with status := Status.THINKING } else s
  -- if (inputTranscription?.text) currentInputTranscriptionRef.current += ...;
  let s2 := match ev.inputTranscription with
    | some t => { s1 with currentInputTranscription := s1.currentInputTranscription ++ t }
    | none => s1
  -- if (outputTranscription?.text) currentOutputTranscriptionRef.current += ...;
  let s3 := match ev.outputTranscription with
    | some t => { s2 with currentOutputTranscription := s2.currentOutputTranscription ++ t }
    | none => s2
  -- if (modelTurn?.parts[0]?.inlineData?.data) { setStatus('SPEAKING');
  --   decode; schedule; advance the cursor; add to the playing set; }
  let audio := match ev.modelTurn with
    | some payload =>
        let s4 := { s3 with status := Status.SPEAKING }
        let startTime := max s4.nextStartTime clock
        let src : Source := ⟨startTime, frameDuration payload⟩
        ({ s4 with nextStartTime := startTime + frameDuration payload,
                   playingSources := s4.playingSources ++ [src] }, some src)
    | none => (s3, none)
  -- if (interrupted) { stopAllPlayback(); setStatus('LISTENING'); }
  let intr := if ev.interrupted then
        let st := stopAllPlayback audio.1
        ({ st.1 with status := Status.LISTENING }, st.2)
      else (audio.1, [])
  -- if (turnComplete) { addMessage(user); addMessage(bot); clear both refs; }
  let s5 := intr.1
  let s6 := if ev.turnComplete then
        { s5 with
          messages := addMessage now s5.currentOutputTranscription Sender.bot
            (addMessage now s5.currentInputTranscription Sender.user s5.messages),
          currentInputTranscription := "",
          currentOutputTranscription := "" }
      else s5
  (s6, ⟨audio.2, intr.2⟩)

/-- `stopSession`: `stopAllPlayback()`, close the socket, stop the capture
tracks, disconnect the processor, close the output context, then
`setStatus('IDLE'); setIsVoiceMode(false)`.  The transcript refs are not
touched.  The second component records the sources force-stopped. -/
def stopSession (s : ClientState) : ClientState × List Source :=
  let st := stopAllPlayback s
  ({ st.1 with status := Status.IDLE, isVoiceMode := false }, st.2)

/-- The `onerror` transport-error callback:
`setStatus('ERROR'); stopSession();`. -/
def onTransportError (s : ClientState) : ClientState × List Source :=
  stopSession { s with status := Status.ERROR }

/-- The state updates `startSession` performs before any event arrives:
`setStatus('LISTENING'); setIsVoiceMode(true);` — the transcript refs and the
message log are not reset. -/
def startSessionState (s : ClientState) : ClientState :=
  { s with status := Status.LISTENING, isVoiceMode := true }

/-! ## Relay server (`src/backend/src/server.ts`) -/

/-- Client-to-server messages on the voice socket. -/
inductive ClientMsg where
  | config (language : Option String)
  | audioIn (data : List Char)
  | other
deriving DecidableEq

/-- Connection-local state inside `wss.on('connection')`: the
`sessionPromise` handle (with its configured language), the number of
`ai.live.connect` calls made (backend sessions created), and the audio
payloads forwarded to the backend via `session.sendRealtimeInput`. -/
structure ServerConn where
  sessionLanguage : Option String
  connectCount : Nat
  forwarded : List (List Char)
deriving DecidableEq

/-- The `ws.on('message')` handler of the relay server:
`if (type === 'config' && !sessionPromise) { connect }`
`else if (type === 'audio_in' && sessionPromise) { forward }`. -/
def handleServerMessage (s : ServerConn) (m : ClientMsg) : ServerConn :=
  match m with
  | .config lang =>
      if s.sessionLanguage = none then
        { s with sessionLanguage := some (lang.getD "English"),
                 connectCount := s.connectCount + 1 }
      else s
  | .audioIn d =>
      if s.sessionLanguage ≠ none then { s with forwarded := s.forwarded ++ [d] }
      else s
  | .other => s

/-- WebSocket ready states. -/
inductive WsReadyState where
  | CONNECTING
  | OPEN
  | CLOSING
  | CLOSED
deriving DecidableEq

/-- `scriptProcessor.onaudioprocess` in `src/frontend/src/App.tsx`:
`if (ws.readyState !== WebSocket.OPEN) return;` then send one `audio_in`
message with the encoded samples.  `none` means the frame was dropped. -/
def onAudioProcess (ws : WsReadyState) (samples : List ℚ) : Option ClientMsg :=
  if ws ≠ WsReadyState.OPEN then none
  else some (ClientMsg.audioIn (encodeOutbound samples))

/-! ## Codec lemmas -/

theorem b64Char_ne_pad (s : Nat) : b64Char s ≠ '=' := by
  unfold b64Char
  rcases lt_or_ge s 64 with h | h
  · have key : ∀ t, t < 64 → b64Alphabet.getD t 'A' ≠ '=' := by decide
    exact key s h
  · rw [List.getD_eq_default]
    · decide
    · simpa [b64Alphabet] using h

theorem b64Index_b64Char (s : Nat) (h : s < 64) : b64Index (b64Char s) = s := by
  have key : ∀ t, t < 64 → b64Index (b64Char t) = t := by decide
  exact key s h

theorem atob_btoa : ∀ bs : List Nat, (∀ b ∈ bs, b < 256) → atobL (btoaL bs) = bs
  | [], _ => rfl
  | [b0], h => by
      have hb0 : b0 < 256 := h b0 (by simp)
      have h0 : b0 / 4 < 64 := by omega
      have h1 : b0 % 4 * 16 < 64 := by omega
      simp only [btoaL, atobL]
      simp only [List.filter_cons, decide_eq_true_eq]
      rw [if_pos (b64Char_ne_pad _), if_pos (b64Char_ne_pad _)]
      simp only [ne_eq, not_true_eq_false, if_neg, List.filter_nil, List.map,
        b64Index_b64Char _ h0, b64Index_b64Char _ h1]
      simp only [sextetsToBytes]
      congr 1
      omega
  | [b0, b1], h => by
      have hb0 : b0 < 256 := h b0 (by simp)
      have hb1 : b1 < 256 := h b1 (by simp)
      have h0 : b0 / 4 < 64 := by omega
      have h1 : b0 % 4 * 16 + b1 / 16 < 64 := by omega
      have h2 : b1 % 16 * 4 < 64 := by omega
      simp only [btoaL, atobL]
      simp only [List.filter_cons, decide_eq_true_eq]
      rw [if_pos (b64Char_ne_pad _), if_pos (b64Char_ne_pad _), if_pos (b64Char_ne_pad _)]
      simp only [ne_eq, not_true_eq_false, if_neg, List.filter_nil, List.map,
        b64Index_b64Char _ h0, b64Index_b64Char _ h1, b64Index_b64Char _ h2]
      simp only [sextetsToBytes]
      congr 1
      · omega
      · congr 1
        omega
  | b0 :: b1 :: b2 :: rest, h => by
      have hb0 : b0 < 256 := h b0 (by simp)
      have hb1 : b1 < 256 := h b1 (by simp)
      have hb2 : b2 < 256 := h b2 (by simp)
      have h0 : b0 / 4 < 64 := by omega
      have h1 : b0 % 4 * 16 + b1 / 16 < 64 := by omega
      have h2 : b1 % 16 * 4 + b2 / 64 < 64 := by omega
      have h3 : b2 % 64 < 64 := by omega
      have ih := atob_btoa rest (fun b hb => h b (by simp [hb]))
      simp only [btoaL, atobL] at ih ⊢
      simp only [List.filter_cons, decide_eq_true_eq]
      rw [if_pos (b64Char_ne_pad _), if_pos (b64Char_ne_pad _),
        if_pos (b64Char_ne_pad _), if_pos (b64Char_ne_pad _)]
      simp only [List.map, b64Index_b64Char _ h0, b64Index_b64Char _ h1,
        b64Index_b64Char _ h2, b64Index_b64Char _ h3]
      simp only [sextetsToBytes]
      rw [ih]
      congr 1
      · omega
      · congr 1
        · omega
        · congr 1
          omega


theorem int16sToBytes_lt (l : List ℤ) : ∀ b ∈ int16sToBytes l, b < 256 := by
  induction l with
  | nil => intro b hb; simp [int16sToBytes] at hb
  | cons i rest ih =>
      intro b hb
      simp only [int16sToBytes, List.map, List.flatten] at hb
      rcases List.mem_append.1 hb with h | h
      · have hu : (i % 65536).toNat < 65536 := by omega
        simp only [int16ToBytesLE, List.mem_cons, List.mem_singleton] at h
        rcases h with rfl | h
        · omega
        · simp at h
          omega
      · exact ih b (by simpa [int16sToBytes] using h)

theorem bytesToInt16s_cons (b0 b1 : Nat) (rest : List Nat) :
    bytesToInt16s (b0 :: b1 :: rest) = toSigned16 (b0 + 256 * b1) :: bytesToInt16s rest := rfl

theorem bytesToInt16s_int16sToBytes (l : List ℤ)
    (h : ∀ i ∈ l, -32768 ≤ i ∧ i < 32768) :
    bytesToInt16s (int16sToBytes l) = l := by
  induction l with
  | nil => rfl
  | cons i rest ih =>
      obtain ⟨h1, h2⟩ := h i (by simp)
      have hrest := ih (fun j hj => h j (by simp [hj]))
      have step : int16sToBytes (i :: rest) =
          ((i % 65536).toNat % 256) :: ((i % 65536).toNat / 256) :: int16sToBytes rest := by
        simp [int16sToBytes, int16ToBytesLE]
      rw [step, bytesToInt16s_cons, hrest]
      congr 1
      unfold toSigned16
      have hu : ((i % 65536).toNat % 256) + 256 * ((i % 65536).toNat / 256) = (i % 65536).toNat := by
        omega
      rw [hu]
      split <;> omega

theorem toInt16_range (t : ℤ) : -32768 ≤ toInt16 t ∧ toInt16 t < 32768 := by
  unfold toInt16
  dsimp only
  split <;> omega

theorem toInt16_eq_self (t : ℤ) (h1 : -32768 ≤ t) (h2 : t < 32768) : toInt16 t = t := by
  unfold toInt16
  dsimp only
  split <;> omega

theorem ratTruncZ_abs_lt (x : ℚ) : |(ratTruncZ x : ℚ) - x| < 1 := by
  unfold ratTruncZ
  split
  · rw [abs_sub_lt_iff]
    constructor
    · linarith [Int.floor_le x]
    · linarith [Int.lt_floor_add_one x]
  · rw [abs_sub_lt_iff]
    constructor
    · linarith [Int.ceil_lt_add_one x]
    · linarith [Int.le_ceil x]

theorem ratTruncZ_range (x : ℚ) (h1 : -32768 ≤ x) (h2 : x < 32768) :
    -32768 ≤ ratTruncZ x ∧ ratTruncZ x < 32768 := by
  unfold ratTruncZ
  split
  · rename_i hx
    constructor
    · have : (0:ℤ) ≤ ⌊x⌋ := Int.floor_nonneg.2 hx
      omega
    · exact_mod_cast Int.floor_lt.2 (by exact_mod_cast h2)
  · rename_i hx
    push_neg at hx
    constructor
    · have : (-32768 : ℚ) ≤ (⌈x⌉ : ℚ) := le_trans h1 (Int.le_ceil x)
      exact_mod_cast this
    · have : ⌈x⌉ ≤ (0:ℤ) := Int.ceil_le.2 (by exact_mod_cast le_of_lt hx)
      omega

theorem jsToInt16_range (f : ℚ) : -32768 ≤ jsToInt16 f ∧ jsToInt16 f < 32768 :=
  toInt16_range _

theorem jsToInt16_quantization (f : ℚ) (h1 : -1 ≤ f) (h2 : f < 1) :
    |((jsToInt16 f : ℤ) : ℚ) / 32768 - f| ≤ 1 / 32768 := by
  have hx1 : (-32768 : ℚ) ≤ f * 32768 := by linarith
  have hx2 : f * 32768 < 32768 := by linarith
  obtain ⟨hr1, hr2⟩ := ratTruncZ_range (f * 32768) hx1 hx2
  have heq : jsToInt16 f = ratTruncZ (f * 32768) := by
    unfold jsToInt16
    exact toInt16_eq_self _ hr1 hr2
  rw [heq]
  have habs := ratTruncZ_abs_lt (f * 32768)
  have key : ((ratTruncZ (f * 32768) : ℤ) : ℚ) / 32768 - f =
      (((ratTruncZ (f * 32768) : ℤ) : ℚ) - f * 32768) / 32768 := by
    field_simp
    ring
  rw [key, abs_div]
  rw [abs_of_pos (by norm_num : (0:ℚ) < 32768)]
  apply div_le_div_of_nonneg_right (le_of_lt habs) (by norm_num)

/-! ## Claim C2: codec round trip -/

theorem getD_map_div (l : List ℤ) (i : Nat) :
    (l.map (fun v => ((v : ℤ) : ℚ) / 32768)).getD i 0 = ((l.getD i 0 : ℤ) : ℚ) / 32768 := by
  have h := List.getD_map l ((0:ℤ)) (fun v => ((v : ℤ) : ℚ) / 32768) (n := i)
  simpa using h

theorem decodeMono_encode (samples : List ℚ) :
    decodeMonoQ (atobL (encodeOutbound samples)) =
      samples.map (fun f => ((jsToInt16 f : ℤ) : ℚ) / 32768) := by
  unfold decodeMonoQ encodeOutbound
  rw [atob_btoa _ (int16sToBytes_lt _)]
  rw [bytesToInt16s_int16sToBytes _ (fun i hi => by
    obtain ⟨f, _, rfl⟩ := List.mem_map.1 hi
    exact jsToInt16_range f)]
  rw [List.map_map]
  rfl

/-- Claim C2, amended: for capture samples in the half-open interval [-1, 1)
the round trip through the outbound encoding (multiply by 32768, ToInt16
truncate-and-wrap, little-endian serialization, base64) and the inbound
decoding (base64, Int16Array view, divide by 32768.0) reproduces every sample
within quantization error 1/32768.  The claim's closed interval [-1, 1] fails
at 1 (see the counterexample). -/
theorem c2_roundtrip_quantization (samples : List ℚ)
    (h : ∀ f ∈ samples, -1 ≤ f ∧ f < 1) :
    (decodeMonoQ (atobL (encodeOutbound samples))).length = samples.length ∧
    ∀ i, i < samples.length →
      |(decodeMonoQ (atobL (encodeOutbound samples))).getD i 0 - samples.getD i 0| ≤ 1 / 32768 := by
  rw [decodeMono_encode]
  constructor
  · simp
  · intro i hi
    have hmem : samples.getD i 0 ∈ samples := by
      rw [List.getD_eq_getElem _ _ hi]
      exact List.getElem_mem _
    obtain ⟨hf1, hf2⟩ := h _ hmem
    have hmap : (samples.map (fun f => ((jsToInt16 f : ℤ) : ℚ) / 32768)).getD i 0 =
        ((jsToInt16 (samples.getD i 0) : ℤ) : ℚ) / 32768 := by
      rw [List.getD_eq_getElem _ _ (by simpa using hi), List.getElem_map,
        List.getD_eq_getElem _ _ hi]
    rw [hmap]
    exact jsToInt16_quantization _ hf1 hf2

/-- Witness for C2 at samples 1/2 and -3/4. -/
theorem c2_roundtrip_quantization_witness :
    (∀ f ∈ [(1:ℚ)/2, -3/4], -1 ≤ f ∧ f < 1) ∧
    ∀ i, i < ([(1:ℚ)/2, -3/4]).length →
      |(decodeMonoQ (atobL (encodeOutbound [(1:ℚ)/2, -3/4]))).getD i 0 -
        ([(1:ℚ)/2, -3/4]).getD i 0| ≤ 1 / 32768 := by
  have hpre : ∀ f ∈ [(1:ℚ)/2, -3/4], -1 ≤ f ∧ f < 1 := by
    intro f hf
    rcases List.mem_cons.1 hf with rfl | hf
    · norm_num
    rcases List.mem_cons.1 hf with rfl | hf
    · norm_num
    · simp at hf
  exact ⟨hpre, (c2_roundtrip_quantization [(1:ℚ)/2, -3/4] hpre).2⟩

theorem jsToInt16_one : jsToInt16 1 = -32768 := by
  unfold jsToInt16 ratTruncZ
  norm_num
  decide

/-- Claim C2, counterexample: the sample 1.0 lies in the claimed interval
[-1, 1] but round-trips to -1.0 (the ToInt16 conversion wraps 32768 to
-32768), an error of 2, far above 1/32768. -/
theorem c2_roundtrip_fails_at_one :
    decodeMonoQ (atobL (encodeOutbound [1])) = [-1] ∧
    ¬ |(decodeMonoQ (atobL (encodeOutbound [1]))).getD 0 0 - ([(1:ℚ)]).getD 0 0| ≤ 1 / 32768 := by
  have h1 : decodeMonoQ (atobL (encodeOutbound [1])) = [-1] := by
    rw [decodeMono_encode]
    simp only [List.map, jsToInt16_one]
    norm_num
  refine ⟨h1, ?_⟩
  rw [h1]
  norm_num

/-! ## Claim C3: playback scheduling order -/

theorem scheduleAll_cons (next dur clock : ℚ) (rest : List (ℚ × ℚ)) :
    scheduleAll next ((dur, clock) :: rest) =
      (⟨max next clock, dur⟩ :: (scheduleAll (max next clock + dur) rest).1,
       (scheduleAll (max next clock + dur) rest).2) := rfl

theorem scheduleAll_head_ge (next : ℚ) (frames : List (ℚ × ℚ)) :
    ∀ b ∈ (scheduleAll next frames).1.head?, next ≤ b.startTime := by
  cases frames with
  | nil => intro b hb; simp [scheduleAll] at hb
  | cons p rest =>
      intro b hb
      obtain ⟨dur, clock⟩ := p
      rw [scheduleAll_cons] at hb
      simp only [List.head?] at hb
      simp at hb
      subst hb
      exact le_max_left _ _

theorem scheduleAll_gapless (next : ℚ) (frames : List (ℚ × ℚ)) :
    List.Chain' (fun a b => a.startTime + a.duration ≤ b.startTime)
      (scheduleAll next frames).1 := by
  induction frames generalizing next with
  | nil => simp [scheduleAll]
  | cons p rest ih =>
      obtain ⟨dur, clock⟩ := p
      rw [scheduleAll_cons]
      rw [List.chain'_cons']
      refine ⟨?_, ih _⟩
      intro b hb
      have := scheduleAll_head_ge (max next clock + dur) rest b hb
      simpa using this

theorem scheduleAll_next_mono (next : ℚ) (frames : List (ℚ × ℚ))
    (h : ∀ p ∈ frames, 0 ≤ p.1) :
    next ≤ (scheduleAll next frames).2 := by
  induction frames generalizing next with
  | nil => simp [scheduleAll]
  | cons p rest ih =>
      obtain ⟨dur, clock⟩ := p
      have hdur : 0 ≤ dur := h (dur, clock) (by simp)
      rw [scheduleAll_cons]
      have step : next ≤ max next clock + dur := by
        have := le_max_left next clock
        linarith
      exact le_trans step (ih _ (fun q hq => h q (by simp [hq])))

theorem scheduleAll_durations (next : ℚ) (frames : List (ℚ × ℚ))
    (h : ∀ p ∈ frames, 0 ≤ p.1) :
    ∀ src ∈ (scheduleAll next frames).1, 0 ≤ src.duration := by
  induction frames generalizing next with
  | nil => intro src hs; simp [scheduleAll] at hs
  | cons p rest ih =>
      obtain ⟨dur, clock⟩ := p
      intro src hs
      rw [scheduleAll_cons] at hs
      rcases List.mem_cons.1 hs with rfl | hs
      · exact h (dur, clock) (by simp)
      · exact ih _ (fun q hq => h q (by simp [hq])) src hs


theorem scheduleAll_starts_mono (next : ℚ) (frames : List (ℚ × ℚ))
    (h : ∀ p ∈ frames, 0 ≤ p.1) :
    List.Chain' (fun a b => a.startTime ≤ b.startTime) (scheduleAll next frames).1 := by
  induction frames generalizing next with
  | nil => simp [scheduleAll]
  | cons p rest ih =>
      obtain ⟨dur, clock⟩ := p
      have hdur : 0 ≤ dur := h (dur, clock) (by simp)
      rw [scheduleAll_cons]
      rw [List.chain'_cons']
      constructor
      · intro b hb
        have hge := scheduleAll_head_ge (max next clock + dur) rest b hb
        simp only
        linarith
      · exact ih _ (fun q hq => h q (by simp [hq]))

/-- Claim C3: scheduling inbound frames in arrival order with
`startTime = max(nextStartTime, clock)` and `nextStartTime = startTime + duration`
yields gapless ordering (each start is at least the previous start plus its
duration), non-decreasing start times, and a non-decreasing cursor, for any
frame durations that are non-negative. -/
theorem c3_schedule_monotone (next : ℚ) (frames : List (ℚ × ℚ))
    (h : ∀ p ∈ frames, 0 ≤ p.1) :
    (∀ dur clock rest, frames = (dur, clock) :: rest →
        (scheduleAll next frames).1.head? = some ⟨max next clock, dur⟩) ∧
    List.Chain' (fun a b => a.startTime + a.duration ≤ b.startTime)
      (scheduleAll next frames).1 ∧
    List.Chain' (fun a b => a.startTime ≤ b.startTime) (scheduleAll next frames).1 ∧
    next ≤ (scheduleAll next frames).2 := by
  refine ⟨?_, scheduleAll_gapless next frames, ?_, scheduleAll_next_mono next frames h⟩
  · intro dur clock rest hf
    subst hf
    rw [scheduleAll_cons]
    rfl
  · exact scheduleAll_starts_mono next frames h

/-- Witness for C3: two frames with durations 1 and 2 arriving at clock times
0 and 5 with an initial cursor of 0. -/
theorem c3_schedule_monotone_witness :
    List.Chain' (fun a b => a.startTime + a.duration ≤ b.startTime)
      (scheduleAll 0 [((1:ℚ), (0:ℚ)), (2, 5)]).1 ∧
    (0:ℚ) ≤ (scheduleAll 0 [((1:ℚ), (0:ℚ)), (2, 5)]).2 := by
  have h := c3_schedule_monotone 0 [((1:ℚ), (0:ℚ)), (2, 5)] (by
    intro p hp
    rcases List.mem_cons.1 hp with rfl | hp
    · norm_num
    rcases List.mem_cons.1 hp with rfl | hp
    · norm_num
    · simp at hp)
  exact ⟨h.2.1, h.2.2.2⟩

/-! ## Claim C4: stopAllPlayback -/

/-- Claim C4, counterexample: on a state whose active-source set is already
empty but whose cursor is 5 (reachable: the last scheduled source ended
naturally, which removes it from the set without resetting the cursor),
`stopAllPlayback` is not a no-op — it still resets `nextStartTime` to 0. -/
theorem c4_stopall_not_noop_on_empty :
    (stopAllPlayback ⟨Status.LISTENING, [], 5, [], "", "", true⟩).1 ≠
      ⟨Status.LISTENING, [], 5, [], "", "", true⟩ := by
  intro hcontra
  have : (stopAllPlayback ⟨Status.LISTENING, [], 5, [], "", "", true⟩).1.nextStartTime
      = (5:ℚ) := by rw [hcontra]
  simp [stopAllPlayback] at this

/-- Claim C4, amended: after `stopAllPlayback` the active-source set is empty
and `nextStartTime` is 0 regardless of the prior state; calling it twice
yields the same state as calling it once; on an already-empty set no source
receives a `stop()` call, and it is a state no-op exactly when the cursor is
already 0. -/
theorem c4_stopall_spec (s : ClientState) :
    (stopAllPlayback s).1.playingSources = [] ∧
    (stopAllPlayback s).1.nextStartTime = 0 ∧
    (stopAllPlayback (stopAllPlayback s).1).1 = (stopAllPlayback s).1 ∧
    (s.playingSources = [] →
      (stopAllPlayback s).2 = [] ∧
      (s.nextStartTime = 0 → (stopAllPlayback s).1 = s)) := by
  obtain ⟨st, ms, next, srcs, ti, to2, vm⟩ := s
  refine ⟨rfl, rfl, rfl, ?_⟩
  intro hempty
  subst hempty
  refine ⟨rfl, ?_⟩
  intro hnext
  subst hnext
  rfl

/-- Witness for C4 on the canonical already-stopped state: no source is
stopped and the state is unchanged. -/
theorem c4_stopall_spec_witness :
    (stopAllPlayback ⟨Status.IDLE, [], 0, [], "", "", false⟩).2 = [] ∧
    (stopAllPlayback ⟨Status.IDLE, [], 0, [], "", "", false⟩).1 =
      ⟨Status.IDLE, [], 0, [], "", "", false⟩ := by
  have h := (c4_stopall_spec ⟨Status.IDLE, [], 0, [], "", "", false⟩).2.2.2 rfl
  exact ⟨h.1, h.2 rfl⟩

/-! ## Claim C1: event field application order -/

theorem str_append_empty (s : String) : s ++ "" = s := by
  cases s
  show String.append _ _ = _
  simp [String.append]

theorem frameDuration_quad : frameDuration ['A','A','A','='] = 1 / 24000 := by
  unfold frameDuration
  norm_num [show (bytesToInt16s (atobL ['A','A','A','='])).length = 1 from by decide]

/-- Claim C1, counterexample: an event carrying both an audio frame and the
interruption flag still schedules the frame — the audio branch runs before
the `interrupted` branch, so the source is started (and only afterwards
stopped by `stopAllPlayback`), contradicting the claimed short-circuit. -/
theorem c1_interrupted_frame_still_scheduled :
    (processServerContent Status.IDLE 0 7
        ⟨none, none, some ['A','A','A','='], true, false⟩
        ⟨Status.SPEAKING, [], 0, [], "", "", true⟩).2.scheduled =
      some ⟨0, 1 / 24000⟩ ∧
    (processServerContent Status.IDLE 0 7
        ⟨none, none, some ['A','A','A','='], true, false⟩
        ⟨Status.SPEAKING, [], 0, [], "", "", true⟩).2.stopped =
      [⟨0, 1 / 24000⟩] ∧
    (processServerContent Status.IDLE 0 7
        ⟨none, none, some ['A','A','A','='], true, false⟩
        ⟨Status.SPEAKING, [], 0, [], "", "", true⟩).1.playingSources = [] := by
  refine ⟨?_, ?_, ?_⟩ <;>
    simp [processServerContent, stopAllPlayback, frameDuration_quad]

/-- Claim C1, amended: the optional fields of a content event are applied in
the order the handler's statements run: transcript fragments first, then the
audio frame is scheduled if present (regardless of the interruption flag),
then interruption force-stops all playback — including the source scheduled
by this same event — clears the set and resets the cursor, and turn-complete
is applied last, so fragments carried in the same event as a turn-complete
are included in the flushed messages. -/
theorem c1_event_processing_order (c : Status) (clock : ℚ) (now : Nat)
    (ev : ServerContent) (s : ClientState) :
    (ev.turnComplete = true →
      (processServerContent c clock now ev s).1.messages =
        addMessage now (s.currentOutputTranscription ++ ev.outputTranscription.getD "")
          Sender.bot
          (addMessage now (s.currentInputTranscription ++ ev.inputTranscription.getD "")
            Sender.user s.messages) ∧
      (processServerContent c clock now ev s).1.currentInputTranscription = "" ∧
      (processServerContent c clock now ev s).1.currentOutputTranscription = "") ∧
    (∀ payload, ev.modelTurn = some payload →
      (processServerContent c clock now ev s).2.scheduled =
        some ⟨max s.nextStartTime clock, frameDuration payload⟩) ∧
    (ev.interrupted = true →
      (processServerContent c clock now ev s).1.playingSources = [] ∧
      (processServerContent c clock now ev s).1.nextStartTime = 0 ∧
      ∀ payload, ev.modelTurn = some payload →
        Source.mk (max s.nextStartTime clock) (frameDuration payload) ∈
          (processServerContent c clock now ev s).2.stopped) ∧
    (ev.interrupted = false →
      ∀ payload, ev.modelTurn = some payload →
        (processServerContent c clock now ev s).1.nextStartTime =
          max s.nextStartTime clock + frameDuration payload ∧
        Source.mk (max s.nextStartTime clock) (frameDuration payload) ∈
          (processServerContent c clock now ev s).1.playingSources) := by
  obtain ⟨it, ot, mt, intr, tc⟩ := ev
  cases it <;> cases ot <;> cases mt <;> cases intr <;> cases tc <;>
    simp [processServerContent, stopAllPlayback, str_append_empty, apply_ite,
      ite_self]

/-- Witness for C1: a single event carrying trailing fragments, an audio
frame, the interruption flag and a turn-complete, processed from a mid-turn
state. -/
theorem c1_event_processing_order_witness :
    (processServerContent Status.IDLE 2 9
        ⟨some " world", some "!", some ['A','A','A','='], true, true⟩
        ⟨Status.SPEAKING, [], 1, [⟨0, 1⟩], "hello", "hi", true⟩).1.messages =
      addMessage 9 ("hi" ++ "!") Sender.bot
        (addMessage 9 ("hello" ++ " world") Sender.user []) ∧
    (processServerContent Status.IDLE 2 9
        ⟨some " world", some "!", some ['A','A','A','='], true, true⟩
        ⟨Status.SPEAKING, [], 1, [⟨0, 1⟩], "hello", "hi", true⟩).2.scheduled =
      some ⟨max 1 2, frameDuration ['A','A','A','=']⟩ ∧
    (processServerContent Status.IDLE 2 9
        ⟨some " world", some "!", some ['A','A','A','='], true, true⟩
        ⟨Status.SPEAKING, [], 1, [⟨0, 1⟩], "hello", "hi", true⟩).1.playingSources = [] := by
  have h := c1_event_processing_order Status.IDLE 2 9
    ⟨some " world", some "!", some ['A','A','A','='], true, true⟩
    ⟨Status.SPEAKING, [], 1, [⟨0, 1⟩], "hello", "hi", true⟩
  refine ⟨(h.1 rfl).1, h.2.1 _ rfl, (h.2.2.1 rfl).1⟩

/-! ## Claims C5, C6: turn state guard and transcript flush -/

/-- Claim C5: the guard `if (status !== 'SPEAKING') setStatus('THINKING')`
compares the render-time closure value of `status`, not the live state (the
handler closure is created once by `startSession`, whose `useCallback`
dependency list omits `status`).  First conjunct: with the closure value
`IDLE` — the value at the render in which the session was started — a
fragment-only content event arriving while the live state is `SPEAKING`
regresses it to `THINKING`, contradicting the claim.  Second conjunct: the
only constant closure value that blocks the regression, `SPEAKING`, would
instead prevent the required `LISTENING → THINKING` transition, so no
constant closure value realizes the claimed behaviour. -/
theorem c5_stale_guard_regresses :
    (processServerContent Status.IDLE 0 0 ⟨some "x", none, none, false, false⟩
        ⟨Status.SPEAKING, [], 0, [], "", "", true⟩).1.status = Status.THINKING ∧
    (processServerContent Status.SPEAKING 0 0 ⟨some "x", none, none, false, false⟩
        ⟨Status.LISTENING, [], 0, [], "", "", true⟩).1.status = Status.LISTENING := by
  constructor <;> simp [processServerContent]

/-- Claim C6: processing a turn-complete event flushes the accumulated
transcripts: with both sides non-empty after trimming, exactly two messages
are appended, the user one first and the bot one second; a side whose
accumulated text trims to empty persists nothing; both buffers are cleared. -/
theorem c6_turn_complete_flush (c : Status) (clock : ℚ) (now : Nat) (s : ClientState) :
    (jsTrim s.currentInputTranscription ≠ "" → jsTrim s.currentOutputTranscription ≠ "" →
      (processServerContent c clock now ⟨none, none, none, false, true⟩ s).1.messages =
        s.messages ++ [⟨now, jsTrim s.currentInputTranscription, Sender.user⟩,
          ⟨now, jsTrim s.currentOutputTranscription, Sender.bot⟩]) ∧
    (jsTrim s.currentInputTranscription = "" → jsTrim s.currentOutputTranscription ≠ "" →
      (processServerContent c clock now ⟨none, none, none, false, true⟩ s).1.messages =
        s.messages ++ [⟨now, jsTrim s.currentOutputTranscription, Sender.bot⟩]) ∧
    (jsTrim s.currentInputTranscription ≠ "" → jsTrim s.currentOutputTranscription = "" →
      (processServerContent c clock now ⟨none, none, none, false, true⟩ s).1.messages =
        s.messages ++ [⟨now, jsTrim s.currentInputTranscription, Sender.user⟩]) ∧
    (jsTrim s.currentInputTranscription = "" → jsTrim s.currentOutputTranscription = "" →
      (processServerContent c clock now ⟨none, none, none, false, true⟩ s).1.messages =
        s.messages) ∧
    (processServerContent c clock now ⟨none, none, none, false, true⟩ s).1.currentInputTranscription = "" ∧
    (processServerContent c clock now ⟨none, none, none, false, true⟩ s).1.currentOutputTranscription = "" := by
  by_cases h1 : jsTrim s.currentInputTranscription = "" <;>
    by_cases h2 : jsTrim s.currentOutputTranscription = "" <;>
      simp [processServerContent, addMessage, h1, h2, apply_ite, ite_self]

/-- Witness for C6 with the spec's example turn: accumulated input `Hola` and
output `¡Hola! ¿Cómo estás?` flush to exactly two messages, user first. -/
theorem c6_turn_complete_flush_witness :
    (processServerContent Status.IDLE 0 5 ⟨none, none, none, false, true⟩
        ⟨Status.LISTENING, [], 0, [], "Hola", "¡Hola! ¿Cómo estás?", true⟩).1.messages =
      [⟨5, "Hola", Sender.user⟩, ⟨5, "¡Hola! ¿Cómo estás?", Sender.bot⟩] := by
  have h := c6_turn_complete_flush Status.IDLE 0 5
    ⟨Status.LISTENING, [], 0, [], "Hola", "¡Hola! ¿Cómo estás?", true⟩
  have e1 : jsTrim "Hola" = "Hola" := by decide
  have e2 : jsTrim "¡Hola! ¿Cómo estás?" = "¡Hola! ¿Cómo estás?" := by decide
  have hmain := h.1 (by rw [show (⟨Status.LISTENING, [], 0, [], "Hola", "¡Hola! ¿Cómo estás?", true⟩ : ClientState).currentInputTranscription = "Hola" from rfl, e1]; decide)
    (by rw [show (⟨Status.LISTENING, [], 0, [], "Hola", "¡Hola! ¿Cómo estás?", true⟩ : ClientState).currentOutputTranscription = "¡Hola! ¿Cómo estás?" from rfl, e2]; decide)
  rw [hmain]
  simp [e1, e2]

/-! ## Claims C7 to C10: error paths, codec characterization, relay guards -/

/-- Claim C7: on a transport error the handler sets `ERROR` and `stopSession`
stops all playback without flushing — but the transcript refs are cleared
nowhere on the error/stop path (only the turn-complete branch clears them),
so the pre-error partial transcripts survive into a subsequently started
session, whose first turn-complete persists them as messages. -/
theorem c7_stale_transcripts_survive :
    (onTransportError ⟨Status.THINKING, [], 3, [⟨0, 2⟩], "hola", "adiós", true⟩).1.messages = [] ∧
    (onTransportError ⟨Status.THINKING, [], 3, [⟨0, 2⟩], "hola", "adiós", true⟩).1.playingSources = [] ∧
    (onTransportError ⟨Status.THINKING, [], 3, [⟨0, 2⟩], "hola", "adiós", true⟩).1.currentInputTranscription = "hola" ∧
    (onTransportError ⟨Status.THINKING, [], 3, [⟨0, 2⟩], "hola", "adiós", true⟩).1.currentOutputTranscription = "adiós" ∧
    (processServerContent Status.IDLE 0 1 ⟨none, none, none, false, true⟩
        (startSessionState
          (onTransportError ⟨Status.THINKING, [], 3, [⟨0, 2⟩], "hola", "adiós", true⟩).1)).1.messages =
      [⟨1, "hola", Sender.user⟩, ⟨1, "adiós", Sender.bot⟩] := by
  have e1 : jsTrim "hola" = "hola" := by decide
  have e2 : jsTrim "adiós" = "adiós" := by decide
  refine ⟨rfl, rfl, rfl, rfl, ?_⟩
  simp [onTransportError, stopSession, stopAllPlayback, startSessionState,
    processServerContent, addMessage, e1, e2]

theorem recoverInt16s_encode (samples : List ℚ) :
    bytesToInt16s (atobL (encodeOutbound samples)) = samples.map jsToInt16 := by
  unfold encodeOutbound
  rw [atob_btoa _ (int16sToBytes_lt _)]
  exact bytesToInt16s_int16sToBytes _ (fun i hi => by
    obtain ⟨f, _, rfl⟩ := List.mem_map.1 hi
    exact jsToInt16_range f)

theorem jsToInt16_small : jsToInt16 (1 / 65536) = 0 := by
  unfold jsToInt16 ratTruncZ
  norm_num
  decide

/-- Claim C8, counterexample: the sample 1/65536 encodes to the 16-bit value
0 (truncation toward zero of 0.5), whereas the claimed `round(f * 32768)`
gives 1. -/
theorem c8_encode_not_round :
    bytesToInt16s (atobL (encodeOutbound [1 / 65536])) = [0] ∧
    round ((1:ℚ) / 65536 * 32768) = 1 := by
  constructor
  · rw [recoverInt16s_encode]
    simp only [List.map_cons, List.map_nil]
    rw [jsToInt16_small]
  · norm_num [round_eq]

theorem getD_map_range {α : Type} (f : Nat → α) (n i : Nat) (d : α) (h : i < n) :
    ((List.range n).map f).getD i d = f i := by
  rw [List.getD_eq_getElem _ _ (by simpa using h)]
  simp

/-- Claim C8, amended: outbound encoding maps each sample `f` to the 16-bit
signed integer obtained by truncating `f * 32768` toward zero and wrapping
modulo 2^16 (the JavaScript Int16Array conversion — not `round`), serialized
little-endian and base64-encoded: decoding the transport text recovers
exactly that integer sequence.  Inbound decoding divides each 16-bit integer
by 32768.0, de-interleaving channel `ch` from the interleaved positions
`i * numChannels + ch`. -/
theorem c8_codec_characterization (samples : List ℚ) (data : List Nat)
    (nc ch i : Nat) (hch : ch < nc) (hi : i < (bytesToInt16s data).length / nc) :
    bytesToInt16s (atobL (encodeOutbound samples)) = samples.map jsToInt16 ∧
    ((decodeAudioDataQ data nc).getD ch []).getD i 0 =
      (((bytesToInt16s data).getD (i * nc + ch) 0 : ℤ) : ℚ) / 32768 := by
  refine ⟨recoverInt16s_encode samples, ?_⟩
  unfold decodeAudioDataQ
  rw [getD_map_range _ _ _ _ hch, getD_map_range _ _ _ _ hi]

/-- Witness for C8 on a stereo buffer of two interleaved 16-bit samples and a
one-sample capture block. -/
theorem c8_codec_characterization_witness :
    bytesToInt16s (atobL (encodeOutbound [(1:ℚ) / 2])) = [(1:ℚ)/2].map jsToInt16 ∧
    ((decodeAudioDataQ [1, 0, 2, 0] 2).getD 1 []).getD 0 0 =
      (((bytesToInt16s [1, 0, 2, 0]).getD (0 * 2 + 1) 0 : ℤ) : ℚ) / 32768 :=
  c8_codec_characterization [(1:ℚ)/2] [1, 0, 2, 0] 2 1 0 (by decide) (by decide)

/-- Claim C9: a second `config` message arriving while the connection's
session handle is live is ignored: no second backend session is created and
the connection state is unchanged. -/
theorem c9_double_config_ignored (s : ServerConn) (lang : Option String)
    (h : s.sessionLanguage ≠ none) :
    handleServerMessage s (ClientMsg.config lang) = s ∧
    (handleServerMessage s (ClientMsg.config lang)).connectCount = s.connectCount := by
  have h2 : ¬ (s.sessionLanguage = none) := h
  constructor <;> simp [handleServerMessage, h2]

/-- Witness for C9: a live English session receives a second config. -/
theorem c9_double_config_ignored_witness :
    handleServerMessage ⟨some "English", 1, []⟩ (ClientMsg.config (some "Deutsch")) =
      (⟨some "English", 1, []⟩ : ServerConn) :=
  (c9_double_config_ignored ⟨some "English", 1, []⟩ (some "Deutsch") (by simp)).1

/-- Claim C10: a capture callback firing while the socket is not OPEN drops
the frame (nothing is sent or queued; the handler is total, so no exception
propagates), and the relay ignores an `audio_in` message arriving before any
`config` created a backend session. -/
theorem c10_drop_before_open (ws : WsReadyState) (samples : List ℚ)
    (srv : ServerConn) (d : List Char)
    (hws : ws ≠ WsReadyState.OPEN) (hs : srv.sessionLanguage = none) :
    onAudioProcess ws samples = none ∧
    handleServerMessage srv (ClientMsg.audioIn d) = srv := by
  constructor
  · simp [onAudioProcess, hws]
  · simp [handleServerMessage, hs]

/-- Witness for C10: a frame captured while the socket is still connecting,
and an audio message reaching a connection with no session yet. -/
theorem c10_drop_before_open_witness :
    onAudioProcess WsReadyState.CONNECTING [(1:ℚ)/2] = none ∧
    handleServerMessage ⟨none, 0, []⟩ (ClientMsg.audioIn ['A']) =
      (⟨none, 0, []⟩ : ServerConn) :=
  c10_drop_before_open WsReadyState.CONNECTING [(1:ℚ)/2] ⟨none, 0, []⟩ ['A']
    (by simp) rfl

end VoiceChatbot
